import Mathlib

/-!
Verification of the Toronto restaurant explorer's data-fusion pipeline
(`DataLoader` in `dataLoader.js`, plus the inline fusion code in the
minimap visualization script).

The pipeline is shallowly embedded: JavaScript records become Lean
structures with `Option` fields for values that may be `undefined`,
JavaScript truthiness of those fields is made explicit, the in-place
`forEach` mutation of the review array is modelled as a state transform,
and `Math.random()` draws are modelled by an explicit stream
`rng : Nat → Nat` whose draw at step `i` is reduced modulo the size of
the remaining pool (the JS code draws `Math.floor(Math.random() * (len - i))`).
-/

/-- A primitive JavaScript value as it occurs in the optional review
fields (`avg_rating`, `num_of_reviews`): a number or a string.
CSV parsing yields strings; the synthesis step writes a string rating
and a numeric review count. -/
inductive JsVal where
  | num (n : Int)
  | str (s : String)
deriving DecidableEq, Repr

/-- JavaScript truthiness of a possibly-undefined primitive value:
`undefined` (`none`), the number `0` and the empty string are falsy. -/
def truthyJs : Option JsVal → Bool
  | none => false
  | some (JsVal.num n) => n != 0
  | some (JsVal.str s) => s != ""

/-- JavaScript truthiness of a possibly-undefined string field:
`undefined` and `""` are falsy. -/
def truthyOptStr : Option String → Bool
  | none => false
  | some s => s != ""

/-- A raw Dinesafe inspection record, with the fields the pipeline reads.
Fields the code guards against absence (`d.Severity || ""`, truthiness
checks on name and coordinates) are `Option String`. -/
structure InspectionRecord where
  EstablishmentName : Option String
  EstablishmentType : String
  EstablishmentStatus : String
  Severity : Option String
  Latitude : Option String
  Longitude : Option String
  unique_id : String
deriving DecidableEq, Repr

/-- A raw Yelp review record, with the fields the pipeline reads or writes. -/
structure ReviewRecord where
  RestaurantName : Option String
  avg_rating : Option JsVal
  num_of_reviews : Option JsVal
  RestaurantPriceRange : Option String
deriving DecidableEq, Repr

/-- An enriched record as produced by `processData`: the object spread
`{ ...dinesafeRest, yelpMatch, healthScore, healthGrade, worstSeverity }`.
The spread copy of the inspection fields is the `base` component. -/
structure EnrichedRecord where
  base : InspectionRecord
  yelpMatch : Option ReviewRecord
  healthScore : Int
  healthGrade : String
  worstSeverity : String
deriving DecidableEq, Repr

/-- Character-list prefix test (`pat` begins `l`), used to embed
JavaScript's `String.prototype.includes`. -/
def matchesAt : List Char → List Char → Bool
  | [], _ => true
  | _ :: _, [] => false
  | p :: ps, c :: cs => p == c && matchesAt ps cs

/-- Does `pat` occur as a contiguous run somewhere in `l`? -/
def occursIn (pat : List Char) : List Char → Bool
  | [] => matchesAt pat []
  | c :: t => matchesAt pat (c :: t) || occursIn pat (t)

/-- Embedding of JavaScript `s.includes(pat)`. -/
def jsIncludes (s pat : String) : Bool :=
  occursIn pat.toList s.toList

/-- `DataLoader.RESTAURANT_TYPES`: the fixed allow-list of restaurant-like
establishment types. -/
def RESTAURANT_TYPES : List String :=
  ["Restaurant",
   "Food Take Out",
   "Food Court Vendor",
   "Cocktail Bar / Beverage Room",
   "Banquet Facility",
   "Cafeteria - Public Access",
   "Private Club",
   "Mobile Food Preparation Premises",
   "Hot Dog Cart",
   "Ice Cream / Yogurt Vendors",
   "Refreshment Stand (Stationary)",
   "Food Cart",
   "Catering Vehicle",
   "Chartered Cruise Boats"]

/-- `DataLoader.SAMPLE_SIZE`. -/
def SAMPLE_SIZE : Nat := 15000

/-- One in-place swap `[result[i], result[j]] = [result[j], result[i]]` on a
list; out-of-range indices leave the list unchanged (the pipeline only ever
swaps in range). -/
def swapList (l : List α) (i j : Nat) : List α :=
  match l.get? i, l.get? j with
  | some a, some b => (l.set i b).set j a
  | some _, none => l
  | none, _ => l

/-- The partial Fisher–Yates loop of `DataLoader.randomSample`:
`for (let i = 0; i < sampleSize; i++) { const j = i + floor(random() * (len - i)); swap i j }`.
`k` counts the remaining iterations, `i` is the loop index, and the random
draw at step `i` is `rng i % (l.length - i)`. -/
def fisherAux (rng : Nat → Nat) : Nat → Nat → List α → List α
  | _, 0, l => l
  | i, k + 1, l => fisherAux rng (i + 1) k (swapList l i (i + rng i % (l.length - i)))

/-- `DataLoader.randomSample`: return the array unchanged when
`!sampleSize || sampleSize >= array.length` (a `sampleSize` of `0` models the
falsy JS configurations `null`/`0`), otherwise partially shuffle a copy and
keep the first `sampleSize` elements. -/
def randomSample (rng : Nat → Nat) (array : List α) (sampleSize : Nat) : List α :=
  if sampleSize = 0 ∨ array.length ≤ sampleSize then array
  else (fisherAux rng 0 sampleSize array).take sampleSize

/-- `DataLoader.calculateHealthScore`: start at 100, deduct for status
(`Closed` −100, else `Conditional Pass` −30), then deduct for the first
matching severity substring (`C - Crucial` −40, else `S - Significant` −20,
else `M - Minor` −10), and clamp at 0. -/
def calculateHealthScore (restaurant : InspectionRecord) : Int :=
  let score : Int := 100
  let score : Int :=
    if restaurant.EstablishmentStatus = "Closed" then score - 100
    else if restaurant.EstablishmentStatus = "Conditional Pass" then score - 30
    else score
  let severity := restaurant.Severity.getD ""
  let score : Int :=
    if jsIncludes severity "C - Crucial" then score - 40
    else if jsIncludes severity "S - Significant" then score - 20
    else if jsIncludes severity "M - Minor" then score - 10
    else score
  max 0 score

/-- `DataLoader.getWorstSeverity`. -/
def getWorstSeverity (restaurant : InspectionRecord) : String :=
  let severity := restaurant.Severity.getD ""
  if jsIncludes severity "C - Crucial" then "C"
  else if jsIncludes severity "S - Significant" then "S"
  else if jsIncludes severity "M - Minor" then "M"
  else "clean"

/-- `DataLoader.getHealthGrade`. -/
def getHealthGrade (healthScore : Int) : String :=
  if 90 ≤ healthScore then "A"
  else if 75 ≤ healthScore then "B"
  else if 60 ≤ healthScore then "C"
  else "D"

/-- The effective name length used by the rating synthesis:
`d["Restaurant Name"] ? d["Restaurant Name"].length : 10` (a missing or
empty — falsy — name falls back to 10). -/
def effectiveNameLength (r : ReviewRecord) : Nat :=
  match r.RestaurantName with
  | some n => if n != "" then n.length else 10
  | none => 10

/-- Rendering of the synthesized rating `(3.0 + (len % 15) / 10).toFixed(1)`
as the string of a number of tenths (the values involved, 3.0 through 4.4,
round-trip exactly through one-decimal formatting). -/
def toFixed1 (tenths : Nat) : String :=
  toString (tenths / 10) ++ "." ++ toString (tenths % 10)

/-- The body of the synthesis `forEach`: if `!d.avg_rating`, write a rating
derived from the name length and overwrite `num_of_reviews`. In the source
this mutates the review object in place; here it is the per-record state
transform. -/
def synthesize (d : ReviewRecord) : ReviewRecord :=
  if truthyJs d.avg_rating then d
  else
    let nameLength := effectiveNameLength d
    { d with
      avg_rating := some (JsVal.str (toFixed1 (30 + nameLength % 15))),
      num_of_reviews := some (JsVal.num (5 + (nameLength % 100 : Nat))) }

/-- ASCII whitespace, for the embedding of JS `trim()`. -/
def isWsChar (c : Char) : Bool :=
  c == ' ' || c == '\t' || c == '\n' || c == '\r'

/-- Drop leading whitespace characters. -/
def dropWs : List Char → List Char
  | [] => []
  | c :: t => if isWsChar c then dropWs t else c :: t

/-- Trim whitespace from both ends of a character list. -/
def trimChars (l : List Char) : List Char :=
  ((dropWs (dropWs l).reverse)).reverse

/-- ASCII lower-casing of one character. -/
def lowerChar (c : Char) : Char :=
  if 'A' ≤ c && c ≤ 'Z' then Char.ofNat (c.toNat + 32) else c

/-- JavaScript `s.trim().toLowerCase()` (over the ASCII range), the
join-key normalization. -/
def normalizeName (s : String) : String :=
  String.mk ((trimChars s.toList).map lowerChar)

/-- One iteration of the lookup-building `forEach`: a review record with a
truthy `Restaurant Name` is inserted under its normalized name unless the
key is already present
(`if (!yelpLookup.has(key)) yelpLookup.set(key, yelpRest)`). -/
def lookupInsert (acc : List (String × ReviewRecord)) (yelpRest : ReviewRecord) :
    List (String × ReviewRecord) :=
  match yelpRest.RestaurantName with
  | some n =>
      if n != "" then
        let key := normalizeName n
        if (acc.find? (fun e => e.1 == key)).isSome then acc
        else acc ++ [(key, yelpRest)]
      else acc
  | none => acc

/-- The `yelpLookup` JS `Map`, modelled as the association list of its
entries in insertion order. -/
def buildLookup (yelpData : List ReviewRecord) : List (String × ReviewRecord) :=
  yelpData.foldl lookupInsert []

/-- `yelpLookup.get(key)` (`undefined` on a miss, i.e. `none`). -/
def lookupGet (m : List (String × ReviewRecord)) (key : String) : Option ReviewRecord :=
  (m.find? (fun e => e.1 == key)).map (fun e => e.2)

/-- The per-record enrichment of `processData`'s final `map`. -/
def enrichRecord (yelpLookup : List (String × ReviewRecord))
    (dinesafeRest : InspectionRecord) : EnrichedRecord :=
  let yelpMatch :=
    match dinesafeRest.EstablishmentName with
    | some n => if n != "" then lookupGet yelpLookup (normalizeName n) else none
    | none => none
  let healthScore := calculateHealthScore dinesafeRest
  { base := dinesafeRest
    yelpMatch := yelpMatch
    healthScore := healthScore
    healthGrade := getHealthGrade healthScore
    worstSeverity := getWorstSeverity dinesafeRest }

/-- The final geo filter `.filter(d => d["Latitude"] && d["Longitude"])`:
plain JS truthiness of the two coordinate fields. -/
def geoValid (d : EnrichedRecord) : Bool :=
  truthyOptStr d.base.Latitude && truthyOptStr d.base.Longitude

/-- `DataLoader.processData`. `yelpInput = none` models a malformed
(non-array) review dataset, which the code replaces by `[]`. The random
stream `rng` stands for the `Math.random()` draws consumed by the sampling
step. Returns the merged, geo-filtered enriched list. -/
def processData (rng : Nat → Nat) (dinesafeJson : List InspectionRecord)
    (yelpInput : Option (List ReviewRecord)) : List EnrichedRecord :=
  let restaurantsOnly :=
    dinesafeJson.filter (fun d => RESTAURANT_TYPES.contains d.EstablishmentType)
  let sampledDinesafe := randomSample rng restaurantsOnly SAMPLE_SIZE
  let yelpData := (yelpInput.getD []).map synthesize
  let yelpLookup := buildLookup yelpData
  (sampledDinesafe.map (enrichRecord yelpLookup)).filter geoValid

/-- The net effect of `processData` on the caller's review array: when the
input is a real array, the synthesis `forEach` mutates its records in
place (`d.avg_rating = …; d.num_of_reviews = …`); when it is malformed the
local variable is rebound to `[]` and the caller's value is untouched. -/
def processDataEffect : Option (List ReviewRecord) → Option (List ReviewRecord)
  | none => none
  | some yelpData => some (yelpData.map synthesize)

/-! ## Specification-side definitions

These definitions transcribe the specification's wording, to be compared
with the source-derived functions above. -/

/-- The spec's status deduction `s`: 100 for "Closed", 30 for
"Conditional Pass", 0 otherwise. -/
def specStatusDeduction (r : InspectionRecord) : Int :=
  if r.EstablishmentStatus = "Closed" then 100
  else if r.EstablishmentStatus = "Conditional Pass" then 30
  else 0

/-- The spec's severity deduction `v`: 40 if the severity text contains
"C - Crucial", else 20 for "S - Significant", else 10 for "M - Minor",
else 0. -/
def specSeverityDeduction (r : InspectionRecord) : Int :=
  let severity := r.Severity.getD ""
  if jsIncludes severity "C - Crucial" then 40
  else if jsIncludes severity "S - Significant" then 20
  else if jsIncludes severity "M - Minor" then 10
  else 0

/-- Consume a leading run of digits, returning its length and the rest. -/
def munchDigits : List Char → Nat × List Char
  | [] => (0, [])
  | c :: t =>
      if c.isDigit then
        let p := munchDigits t
        (p.1 + 1, p.2)
      else (0, c :: t)

/-- The spec's "numeric-parseable" coordinate: present, and after an
optional leading minus sign, one or more digits with an optional
fractional part. -/
def specNumericParseable : Option String → Bool
  | none => false
  | some s =>
      let l := s.toList
      let l := match l with
        | '-' :: t => t
        | l => l
      let p := munchDigits l
      p.1 != 0 &&
        (match p.2 with
         | [] => true
         | '.' :: t =>
             let q := munchDigits t
             q.1 != 0 && q.2.isEmpty
         | _ => false)

/-! ## Shared concrete inputs for witnesses and counterexamples -/

/-- A random stream that always draws 0. -/
def rngZero : Nat → Nat := fun _ => 0

/-- A random stream that draws 1 on the first pick and 0 afterwards. -/
def rngOne : Nat → Nat := fun i => if i = 0 then 1 else 0

/-- A passing restaurant inspection record with valid coordinates. -/
def recPass : InspectionRecord :=
  ⟨some "Joe's", "Restaurant", "Pass", none, some "43.6", some "-79.4", "1"⟩

/-- A closed restaurant with a crucial violation. -/
def recClosed : InspectionRecord :=
  ⟨some "Shut", "Restaurant", "Closed", some "C - Crucial noted", some "43.7", some "-79.3", "2"⟩

/-! ## C1: health score formula -/

/-- C1: for every inspection record, `calculateHealthScore` equals
`max 0 (100 - s - v)` with `s` the status deduction and `v` the severity
deduction; every "Closed" record scores 0, and the score always lies in
`[0, 100]`. -/
theorem C1_healthScore_formula (r : InspectionRecord) :
    calculateHealthScore r = max 0 (100 - specStatusDeduction r - specSeverityDeduction r) ∧
    (r.EstablishmentStatus = "Closed" → calculateHealthScore r = 0) ∧
    0 ≤ calculateHealthScore r ∧ calculateHealthScore r ≤ 100 := by
  have hs : calculateHealthScore r =
      max 0 (100 - specStatusDeduction r - specSeverityDeduction r) := by
    simp only [calculateHealthScore, specStatusDeduction, specSeverityDeduction]
    split_ifs <;> decide
  have hsd : 0 ≤ specStatusDeduction r := by
    simp only [specStatusDeduction]; split_ifs <;> decide
  have hvd0 : 0 ≤ specSeverityDeduction r := by
    simp only [specSeverityDeduction]; split_ifs <;> decide
  have hvd40 : specSeverityDeduction r ≤ 40 := by
    simp only [specSeverityDeduction]; split_ifs <;> decide
  refine ⟨hs, ?_, ?_, ?_⟩
  · intro hc
    have hsd100 : specStatusDeduction r = 100 := by
      simp only [specStatusDeduction]; rw [if_pos hc]
    rw [hs, hsd100]
    exact max_eq_left (by omega)
  · rw [hs]; exact le_max_left 0 _
  · rw [hs]
    exact max_le (by norm_num) (by omega)

/-- Witness for C1 at a concrete closed record with a crucial violation. -/
theorem C1_witness : calculateHealthScore recClosed = 0 :=
  (C1_healthScore_formula recClosed).2.1 rfl

/-! ## C7: health grade thresholds -/

/-- C7: `getHealthGrade` uses the exact thresholds 90/75/60, with the
boundary values 90 → A, 89 → B, 75 → B, 74 → C, 60 → C, 59 → D. -/
theorem C7_grade_thresholds :
    (∀ s : Int,
      (90 ≤ s → getHealthGrade s = "A") ∧
      (75 ≤ s → s < 90 → getHealthGrade s = "B") ∧
      (60 ≤ s → s < 75 → getHealthGrade s = "C") ∧
      (s < 60 → getHealthGrade s = "D")) ∧
    getHealthGrade 90 = "A" ∧ getHealthGrade 89 = "B" ∧ getHealthGrade 75 = "B" ∧
    getHealthGrade 74 = "C" ∧ getHealthGrade 60 = "C" ∧ getHealthGrade 59 = "D" := by
  refine ⟨fun s => ?_, rfl, rfl, rfl, rfl, rfl, rfl⟩
  unfold getHealthGrade
  refine ⟨?_, ?_, ?_, ?_⟩ <;> intros <;> split_ifs <;> first | rfl | omega

/-- Witness for C7 at concrete scores 95 and 63. -/
theorem C7_witness : getHealthGrade 95 = "A" ∧ getHealthGrade 63 = "C" :=
  ⟨(C7_grade_thresholds.1 95).1 (by norm_num),
   (C7_grade_thresholds.1 63).2.2.1 (by norm_num) (by norm_num)⟩

/-! ## Synthesis helpers -/

/-- A review record with a truthy rating passes through the synthesis
`forEach` unchanged. -/
theorem synthesize_of_truthy {r : ReviewRecord} (h : truthyJs r.avg_rating = true) :
    synthesize r = r := by
  simp only [synthesize, h, if_pos]

/-- Synthesis never changes the restaurant name. -/
theorem synthesize_name (r : ReviewRecord) :
    (synthesize r).RestaurantName = r.RestaurantName := by
  simp only [synthesize]
  split <;> rfl

/-- A string is empty iff its length is zero. -/
theorem string_length_eq_zero_iff (s : String) : s.length = 0 ↔ s = "" := by
  constructor
  · intro h
    cases s with
    | mk data =>
      cases data with
      | nil => rfl
      | cons c t => simp [String.length] at h
  · intro h; subst h; rfl

/-! ## C10: review-count overwrite condition -/

/-- C10: the synthesis step overwrites `num_of_reviews` exactly when
`avg_rating` is falsy (absent, `0`, or `""`), even over a carried value;
when `avg_rating` is truthy the record — in particular a missing
`num_of_reviews` — is left untouched. -/
theorem C10_reviews_overwrite (r : ReviewRecord) :
    (truthyJs r.avg_rating = false →
      (synthesize r).num_of_reviews = some (JsVal.num (5 + (effectiveNameLength r % 100 : Nat)))) ∧
    (truthyJs r.avg_rating = true → synthesize r = r) := by
  constructor
  · intro h
    simp only [synthesize, h, Bool.false_eq_true, if_false]
  · exact synthesize_of_truthy

/-- A record whose rating is the falsy number `0` and which already carries
a review count. -/
def rvZeroRating : ReviewRecord := ⟨some "Zed", some (JsVal.num 0), some (JsVal.num 7), none⟩

/-- A record with a truthy rating and a missing review count. -/
def rvKeep : ReviewRecord := ⟨some "Kept", some (JsVal.str "4.5"), none, none⟩

/-- Witness for C10: the carried count of `rvZeroRating` is overwritten,
`rvKeep` is unchanged (its missing count stays missing). -/
theorem C10_witness :
    (synthesize rvZeroRating).num_of_reviews =
      some (JsVal.num (5 + (effectiveNameLength rvZeroRating % 100 : Nat))) ∧
    synthesize rvKeep = rvKeep :=
  ⟨(C10_reviews_overwrite rvZeroRating).1 rfl, (C10_reviews_overwrite rvKeep).2 rfl⟩

/-! ## C8: rating synthesis -/

/-- A review record with a present but empty name and no rating. -/
def rvEmptyName : ReviewRecord := ⟨some "", none, none, none⟩

/-- Counterexample to C8 as stated: for a record whose name is present but
empty, the code uses the fallback length 10 — yielding rating "4.0" and
count 15 — while the claim's formula over the actual name length 0 yields
"3.0" and 5. -/
theorem C8_counterexample :
    (synthesize rvEmptyName).avg_rating = some (JsVal.str "4.0") ∧
    (synthesize rvEmptyName).num_of_reviews = some (JsVal.num 15) ∧
    toFixed1 (30 + ("" : String).length % 15) = "3.0" ∧
    (5 + (("" : String).length % 100 : Nat) : Int) = 5 ∧
    JsVal.str "4.0" ≠ JsVal.str "3.0" ∧ JsVal.num 15 ≠ JsVal.num 5 := by
  refine ⟨rfl, rfl, rfl, rfl, by decide, by decide⟩

/-- C8 (amended): for every review record with a falsy `avg_rating` the
synthesized rating is `3.0 + (len mod 15)/10` (one decimal) and the count
is `5 + (len mod 100)`, where `len` is the name's length with fallback 10
when the name is absent *or empty*; the synthesis is a pure function of
the name, so equal-length (nonempty or both empty) names give identical
synthesized values. -/
theorem C8_amended_synthesis :
    (∀ r : ReviewRecord, truthyJs r.avg_rating = false →
      (synthesize r).avg_rating =
        some (JsVal.str (toFixed1 (30 + effectiveNameLength r % 15))) ∧
      (synthesize r).num_of_reviews =
        some (JsVal.num (5 + (effectiveNameLength r % 100 : Nat)))) ∧
    (∀ (r₁ r₂ : ReviewRecord) (n₁ n₂ : String),
      truthyJs r₁.avg_rating = false → truthyJs r₂.avg_rating = false →
      r₁.RestaurantName = some n₁ → r₂.RestaurantName = some n₂ →
      n₁.length = n₂.length →
      (synthesize r₁).avg_rating = (synthesize r₂).avg_rating ∧
      (synthesize r₁).num_of_reviews = (synthesize r₂).num_of_reviews) := by
  have hmain : ∀ r : ReviewRecord, truthyJs r.avg_rating = false →
      (synthesize r).avg_rating =
        some (JsVal.str (toFixed1 (30 + effectiveNameLength r % 15))) ∧
      (synthesize r).num_of_reviews =
        some (JsVal.num (5 + (effectiveNameLength r % 100 : Nat))) := by
    intro r h
    simp [synthesize, h]
  refine ⟨hmain, ?_⟩
  intro r₁ r₂ n₁ n₂ h₁ h₂ hn₁ hn₂ hlen
  have heff : effectiveNameLength r₁ = effectiveNameLength r₂ := by
    simp only [effectiveNameLength, hn₁, hn₂]
    by_cases he : n₁ = ""
    · have he₂ : n₂ = "" := by
        have : n₂.length = 0 := by rw [← hlen, he]; rfl
        exact (string_length_eq_zero_iff n₂).mp this
      subst he; subst he₂; rfl
    · have he₂ : ¬ n₂ = "" := by
        intro h'
        exact he ((string_length_eq_zero_iff n₁).mp (by rw [hlen, h']; rfl))
      rw [if_pos (by simpa using he), if_pos (by simpa using he₂)]
      exact hlen
  obtain ⟨ha₁, hb₁⟩ := hmain r₁ h₁
  obtain ⟨ha₂, hb₂⟩ := hmain r₂ h₂
  rw [ha₁, ha₂, hb₁, hb₂, heff]
  exact ⟨rfl, rfl⟩

/-- A review record with no name field at all and no rating. -/
def rvNoName : ReviewRecord := ⟨none, none, none, none⟩

/-- Two records with distinct names of equal length, both with falsy
ratings (one absent, one the falsy empty string). -/
def rvFourA : ReviewRecord := ⟨some "abcd", none, none, none⟩

/-- See `rvFourA`. -/
def rvFourB : ReviewRecord := ⟨some "wxyz", some (JsVal.str ""), some (JsVal.num 1), none⟩

/-- Witness for the amended C8 at concrete records. -/
theorem C8_witness :
    ((synthesize rvNoName).avg_rating =
        some (JsVal.str (toFixed1 (30 + effectiveNameLength rvNoName % 15))) ∧
      (synthesize rvNoName).num_of_reviews =
        some (JsVal.num (5 + (effectiveNameLength rvNoName % 100 : Nat)))) ∧
    ((synthesize rvFourA).avg_rating = (synthesize rvFourB).avg_rating ∧
      (synthesize rvFourA).num_of_reviews = (synthesize rvFourB).num_of_reviews) :=
  ⟨C8_amended_synthesis.1 rvNoName rfl,
   C8_amended_synthesis.2 rvFourA rvFourB "abcd" "wxyz" rfl rfl rfl rfl rfl⟩

/-! ## C4: side effects on the raw inputs -/

/-- A review record the synthesis step mutates: no rating, a carried count. -/
def rvMut : ReviewRecord := ⟨some "Cafe", none, some (JsVal.num 7), none⟩

/-- Counterexample to C4 as stated: running the pipeline on a review array
containing a record without a rating leaves the caller's array changed —
the synthesis `forEach` writes `avg_rating` and `num_of_reviews` in place. -/
theorem C4_counterexample : processDataEffect (some [rvMut]) ≠ some [rvMut] := by
  decide

/-- C4 (amended): the pipeline's only effect on its inputs beyond optional
caching is the in-place rating synthesis; a review array whose records all
carry truthy ratings is left unchanged, and a malformed (non-array) review
input is never written to. Inspection records are only read. -/
theorem C4_amended_effect :
    (∀ yelpData : List ReviewRecord,
      (∀ r ∈ yelpData, truthyJs r.avg_rating = true) →
      processDataEffect (some yelpData) = some yelpData) ∧
    processDataEffect none = none := by
  refine ⟨?_, rfl⟩
  intro yelpData h
  simp only [processDataEffect, Option.some.injEq]
  induction yelpData with
  | nil => rfl
  | cons a t ih =>
      simp only [List.map_cons, synthesize_of_truthy (h a (by simp)),
        ih (fun b hb => h b (by simp [hb])), List.cons.injEq, and_self]

/-- Witness for the amended C4: an all-truthy review list passes through
untouched. -/
theorem C4_witness : processDataEffect (some [rvKeep]) = some [rvKeep] :=
  C4_amended_effect.1 [rvKeep] (by decide)

/-! ## C2: geo-validity of the output -/

/-- C2 (amended): every record in the final output has truthy (present and
non-empty) `Latitude` and `Longitude`; records with absent or empty
coordinates never appear. (Non-empty but non-numeric coordinate strings
are *not* filtered — see the counterexample.) -/
theorem C2_amended_geo (rng : Nat → Nat) (dinesafeJson : List InspectionRecord)
    (yelpInput : Option (List ReviewRecord)) (e : EnrichedRecord)
    (he : e ∈ processData rng dinesafeJson yelpInput) :
    truthyOptStr e.base.Latitude = true ∧ truthyOptStr e.base.Longitude = true := by
  simp only [processData] at he
  have := (List.mem_filter.mp he).2
  simpa [geoValid, Bool.and_eq_true] using this

/-- Witness for the amended C2 at a concrete run. -/
theorem C2_witness :
    truthyOptStr (enrichRecord [] recPass).base.Latitude = true ∧
    truthyOptStr (enrichRecord [] recPass).base.Longitude = true :=
  C2_amended_geo rngZero [recPass] none (enrichRecord [] recPass) (by decide)

/-- An inspection record whose coordinates are truthy but not numbers. -/
def recBadGeo : InspectionRecord :=
  ⟨some "X", "Restaurant", "Pass", none, some "not-a-number", some "wat", "9"⟩

/-- Counterexample to C2 as stated: a record whose `Latitude` and
`Longitude` are non-empty but not numeric-parseable survives to the final
output — the filter only tests truthiness. -/
theorem C2_counterexample :
    (processData rngZero [recBadGeo] none).length = 1 ∧
    (processData rngZero [recBadGeo] none).all
      (fun e => specNumericParseable e.base.Latitude &&
        specNumericParseable e.base.Longitude) = false := by
  decide

/-! ## C9: malformed review dataset -/

/-- C9: a malformed (non-array) review dataset is processed exactly like an
empty one, and in that case every output record's `yelpMatch` is absent. -/
theorem C9_malformed_reviews (rng : Nat → Nat) (dinesafeJson : List InspectionRecord) :
    processData rng dinesafeJson none = processData rng dinesafeJson (some []) ∧
    ∀ e ∈ processData rng dinesafeJson none, e.yelpMatch = none := by
  refine ⟨rfl, ?_⟩
  intro e he
  simp only [processData] at he
  have hm := (List.mem_filter.mp he).1
  obtain ⟨d, _, rfl⟩ := List.mem_map.mp hm
  simp only [enrichRecord, Option.getD_none, List.map_nil]
  cases hn : d.EstablishmentName with
  | none => rfl
  | some n =>
      by_cases hne : n = ""
      · subst hne; rfl
      · have hb : (n != "") = true := by simpa using hne
        simp [hb, lookupGet, buildLookup]

/-- Witness for C9 at a concrete run: malformed and empty review inputs
agree, and the single output record has no match. -/
theorem C9_witness :
    processData rngZero [recPass] none = processData rngZero [recPass] (some []) ∧
    (enrichRecord [] recPass).yelpMatch = none :=
  ⟨(C9_malformed_reviews rngZero [recPass]).1,
   (C9_malformed_reviews rngZero [recPass]).2 (enrichRecord [] recPass) (by decide)⟩

/-! ## Swap and shuffle lemmas -/

/-- Writing back the element already at a position is a no-op. -/
theorem set_self_of_get? : ∀ {l : List α} {i : Nat} {a : α},
    l.get? i = some a → l.set i a = l := by
  intro l
  induction l with
  | nil => intro i a h; cases h
  | cons x t ih =>
      intro i a h
      cases i with
      | zero =>
          simp only [List.get?] at h
          cases h
          rfl
      | succ n =>
          simp only [List.get?] at h
          simp only [List.set, ih h]

/-- Hoisting an element out of a `set` is a permutation: if `b` sits at
position `m` of `t`, then `b :: t.set m x` is a rearrangement of `x :: t`. -/
theorem cons_set_perm : ∀ (t : List α) (m : Nat) (b x : α),
    t.get? m = some b → (b :: t.set m x).Perm (x :: t) := by
  intro t
  induction t with
  | nil => intro m b x h; cases h
  | cons y s ih =>
      intro m b x h
      cases m with
      | zero =>
          simp only [List.get?] at h
          cases h
          exact List.Perm.swap x y s
      | succ k =>
          simp only [List.get?] at h
          have step₁ : (b :: y :: s.set k x).Perm (y :: b :: s.set k x) :=
            List.Perm.swap y b (s.set k x)
          have step₂ : (y :: b :: s.set k x).Perm (y :: x :: s) :=
            List.Perm.cons y (ih k b x h)
          have step₃ : (y :: x :: s).Perm (x :: y :: s) := List.Perm.swap x y s
          exact ((step₁.trans step₂).trans step₃)

/-- The double-`set` swap of two present elements is a permutation. -/
theorem set_set_perm : ∀ (l : List α) (i j : Nat) (a b : α),
    l.get? i = some a → l.get? j = some b → ((l.set i b).set j a).Perm l := by
  intro l
  induction l with
  | nil => intro i j a b hi hj; cases hi
  | cons x t ih =>
      intro i j a b hi hj
      cases i with
      | zero =>
          simp only [List.get?] at hi
          cases hi
          cases j with
          | zero =>
              simp only [List.get?] at hj
              cases hj
              exact List.Perm.refl _
          | succ m =>
              simp only [List.get?] at hj
              simp only [List.set]
              exact cons_set_perm t m b x hj
      | succ n =>
          simp only [List.get?] at hi
          cases j with
          | zero =>
              simp only [List.get?] at hj
              cases hj
              simp only [List.set]
              exact cons_set_perm t n a x hi
          | succ m =>
              simp only [List.get?] at hj
              simp only [List.set]
              exact List.Perm.cons x (ih n m a b hi hj)

/-- A `swapList` is always a permutation of the original list. -/
theorem swapList_perm (l : List α) (i j : Nat) : (swapList l i j).Perm l := by
  unfold swapList
  rcases hi : l.get? i with _ | a <;> rcases hj : l.get? j with _ | b <;>
    simp only [] <;> first
  | exact List.Perm.refl l
  | exact set_set_perm l i j a b hi hj

/-- Swapping a position with itself is the identity. -/
theorem swapList_self (l : List α) (i : Nat) : swapList l i i = l := by
  unfold swapList
  rcases hi : l.get? i with _ | a
  · rfl
  · simp only [List.set_set]
    exact set_self_of_get? hi

/-- The partial shuffle permutes the list. -/
theorem fisherAux_perm (rng : Nat → Nat) :
    ∀ (k i : Nat) (l : List α), (fisherAux rng i k l).Perm l := by
  intro k
  induction k with
  | zero => intro i l; exact List.Perm.refl l
  | succ k ih =>
      intro i l
      exact (ih (i + 1) (swapList l i (i + rng i % (l.length - i)))).trans
        (swapList_perm l i _)

/-- A shuffle driven by a stream that draws 0 from index `i` on is the
identity. -/
theorem fisherAux_zero_from (rng : Nat → Nat) :
    ∀ (k i : Nat) (l : List α), (∀ m, i ≤ m → rng m = 0) → fisherAux rng i k l = l := by
  intro k
  induction k with
  | zero => intro i l _; rfl
  | succ k ih =>
      intro i l h
      have hz : rng i = 0 := h i (Nat.le_refl i)
      simp only [fisherAux, hz, Nat.zero_mod, Nat.add_zero, swapList_self]
      exact ih (i + 1) l (fun m hm => h m (Nat.le_of_succ_le hm))

/-! ## C6: sampling size and membership -/

/-- C6: for a positive sample bound, `randomSample` returns the list
itself when its length is within the bound, and otherwise returns exactly
`sampleSize` elements drawn without replacement (a sub-permutation of the
input) via the partial Fisher–Yates shuffle. -/
theorem C6_randomSample_spec (rng : Nat → Nat) (l : List α) (sampleSize : Nat)
    (hpos : 0 < sampleSize) :
    (l.length ≤ sampleSize → randomSample rng l sampleSize = l) ∧
    (sampleSize < l.length →
      (randomSample rng l sampleSize).length = sampleSize ∧
      (randomSample rng l sampleSize).Subperm l) := by
  constructor
  · intro h
    unfold randomSample
    rw [if_pos (Or.inr h)]
  · intro h
    have hcond : ¬ (sampleSize = 0 ∨ l.length ≤ sampleSize) := by
      rintro (h0 | hle) <;> omega
    have hperm : (fisherAux rng 0 sampleSize l).Perm l := fisherAux_perm rng sampleSize 0 l
    constructor
    · unfold randomSample
      rw [if_neg hcond, List.length_take, hperm.length_eq]
      omega
    · unfold randomSample
      rw [if_neg hcond]
      exact ((List.take_sublist sampleSize _).subperm).trans hperm.subperm

/-- Witness for C6: a length-3 list with bound 4 is returned unchanged;
with bound 2 the result has exactly 2 elements drawn from the input. -/
theorem C6_witness :
    randomSample rngZero ([10, 20, 30] : List Nat) 4 = [10, 20, 30] ∧
    (randomSample rngZero ([10, 20, 30] : List Nat) 2).length = 2 ∧
    (randomSample rngZero ([10, 20, 30] : List Nat) 2).Subperm [10, 20, 30] :=
  ⟨(C6_randomSample_spec rngZero [10, 20, 30] 4 (by norm_num)).1 (by norm_num),
   ((C6_randomSample_spec rngZero [10, 20, 30] 2 (by norm_num)).2 (by norm_num)).1,
   ((C6_randomSample_spec rngZero [10, 20, 30] 2 (by norm_num)).2 (by norm_num)).2⟩

/-! ## C5: first-wins join -/

/-- Does a review record carry a truthy name whose normalization is `key`? -/
def reviewKeyMatches (key : String) (r : ReviewRecord) : Bool :=
  match r.RestaurantName with
  | some n => n != "" && normalizeName n == key
  | none => false

/-- The first review record in input order whose normalized name is `key`. -/
def firstMatch (yelpData : List ReviewRecord) (key : String) : Option ReviewRecord :=
  yelpData.find? (reviewKeyMatches key)

/-- Folding `lookupInsert` over a list resolves a key to the accumulator's
entry if present, else to the first matching record of the list. -/
theorem buildLookup_go (key : String) :
    ∀ (l : List ReviewRecord) (acc : List (String × ReviewRecord)),
      lookupGet (l.foldl lookupInsert acc) key =
        (lookupGet acc key).or (firstMatch l key) := by
  intro l
  induction l with
  | nil =>
      intro acc
      simp [firstMatch, Option.or_none]
  | cons r t ih =>
      intro acc
      rw [List.foldl_cons, ih (lookupInsert acc r)]
      rcases hn : r.RestaurantName with _ | n
      · have hins : lookupInsert acc r = acc := by
          simp only [lookupInsert, hn]
        have hfm : firstMatch (r :: t) key = firstMatch t key := by
          simp [firstMatch, List.find?_cons, reviewKeyMatches, hn]
        rw [hins, hfm]
      · by_cases he : n = ""
        · have hins : lookupInsert acc r = acc := by
            simp [lookupInsert, hn, he]
          have hfm : firstMatch (r :: t) key = firstMatch t key := by
            simp [firstMatch, List.find?_cons, reviewKeyMatches, hn, he]
          rw [hins, hfm]
        · have hne : (n != "") = true := by simpa using he
          by_cases hk : normalizeName n == key
          · have hkey : normalizeName n = key := by simpa using hk
            have hfm : firstMatch (r :: t) key = some r := by
              simp [firstMatch, List.find?_cons, reviewKeyMatches, hn, hne, hk]
            rw [hfm]
            rcases hacc : acc.find? (fun e => e.1 == key) with _ | e
            · have hmiss : (acc.find? (fun e => e.1 == normalizeName n)).isSome = false := by
                rw [hkey, hacc]; rfl
              have hins : lookupInsert acc r = acc ++ [(normalizeName n, r)] := by
                simp only [lookupInsert, hn, hne, if_true, hmiss, Bool.false_eq_true, if_false]
              rw [hins]
              simp [lookupGet, List.find?_append, hacc, hkey]
            · have hsome : (acc.find? (fun e => e.1 == normalizeName n)).isSome = true := by
                rw [hkey, hacc]; rfl
              have hins : lookupInsert acc r = acc := by
                simp only [lookupInsert, hn, hne, if_true, hsome, if_true]
              rw [hins]
              simp [lookupGet, hacc]
          · have hfm : firstMatch (r :: t) key = firstMatch t key := by
              simp [firstMatch, List.find?_cons, reviewKeyMatches, hn, hne, hk]
            rw [hfm]
            by_cases hacc : (acc.find? (fun e => e.1 == normalizeName n)).isSome = true
            · have hins : lookupInsert acc r = acc := by
                simp only [lookupInsert, hn, hne, if_true, hacc, if_true]
              rw [hins]
            · have hins : lookupInsert acc r = acc ++ [(normalizeName n, r)] := by
                simp only [lookupInsert, hn, hne, if_true]
                rw [if_neg hacc]
              rw [hins]
              have hlast : lookupGet (acc ++ [(normalizeName n, r)]) key = lookupGet acc key := by
                simp only [lookupGet, List.find?_append]
                have : ([(normalizeName n, r)].find? (fun e => e.1 == key)) = none := by
                  simp [List.find?_cons, hk]
                rw [this, Option.or_none]
              rw [hlast]

/-- The JS `Map` lookup realizes first-in-input-order resolution. -/
theorem buildLookup_get (yelpData : List ReviewRecord) (key : String) :
    lookupGet (buildLookup yelpData) key = firstMatch yelpData key := by
  rw [buildLookup, buildLookup_go key yelpData []]
  rfl

/-- Synthesis preserves the join predicate. -/
theorem reviewKeyMatches_synthesize (key : String) (r : ReviewRecord) :
    reviewKeyMatches key (synthesize r) = reviewKeyMatches key r := by
  simp only [reviewKeyMatches, synthesize_name]

/-- The `yelpMatch` of an enriched record with a truthy name is the lookup
of the normalized name. -/
theorem enrichRecord_yelpMatch_of_name (yelpLookup : List (String × ReviewRecord))
    (d : InspectionRecord) (n : String) (hname : d.EstablishmentName = some n)
    (hne : (n != "") = true) :
    (enrichRecord yelpLookup d).yelpMatch = lookupGet yelpLookup (normalizeName n) := by
  simp [enrichRecord, hname, hne]

/-- C5: every enriched record with a truthy establishment name is joined to
the *first* review record (in input order, after the in-place synthesis
pass) whose normalized name matches; later duplicates of a key are never
selected. Moreover the synthesized first match is the synthesis of the
first match of the raw input, so first-wins holds of the raw input order
as well. -/
theorem C5_join_first_wins (rng : Nat → Nat) (dinesafeJson : List InspectionRecord)
    (yelpData : List ReviewRecord) (e : EnrichedRecord)
    (he : e ∈ processData rng dinesafeJson (some yelpData))
    (n : String) (hname : e.base.EstablishmentName = some n) (hne : (n != "") = true) :
    e.yelpMatch = firstMatch (yelpData.map synthesize) (normalizeName n) ∧
    firstMatch (yelpData.map synthesize) (normalizeName n) =
      (firstMatch yelpData (normalizeName n)).map synthesize := by
  constructor
  · simp only [processData] at he
    have hm := (List.mem_filter.mp he).1
    obtain ⟨d, _, rfl⟩ := List.mem_map.mp hm
    have hname' : d.EstablishmentName = some n := by
      simpa [enrichRecord] using hname
    rw [enrichRecord_yelpMatch_of_name _ d n hname' hne, buildLookup_get]
    rfl
  · rw [firstMatch, List.find?_map synthesize yelpData]
    have hp : (reviewKeyMatches (normalizeName n)) ∘ synthesize =
        reviewKeyMatches (normalizeName n) := by
      funext r
      exact reviewKeyMatches_synthesize (normalizeName n) r
    rw [hp]
    rfl

/-- Two review records sharing the normalized key "joe's"; the first has a
truthy rating (so synthesis leaves it unchanged). -/
def rvJoe1 : ReviewRecord := ⟨some " Joe's ", some (JsVal.str "4.5"), none, some "$$"⟩

/-- The later duplicate for the key "joe's". -/
def rvJoe2 : ReviewRecord := ⟨some "joe's", some (JsVal.str "2.0"), some (JsVal.num 3), none⟩

/-- Witness for C5: in a run over `recPass` and the duplicate-key reviews
`[rvJoe1, rvJoe2]`, the enriched record receives the first review record. -/
theorem C5_witness :
    ((enrichRecord (buildLookup ([rvJoe1, rvJoe2].map synthesize)) recPass).yelpMatch =
      firstMatch ([rvJoe1, rvJoe2].map synthesize) (normalizeName "Joe's") ∧
    firstMatch ([rvJoe1, rvJoe2].map synthesize) (normalizeName "Joe's") =
      (firstMatch [rvJoe1, rvJoe2] (normalizeName "Joe's")).map synthesize) ∧
    firstMatch [rvJoe1, rvJoe2] (normalizeName "Joe's") = some rvJoe1 :=
  ⟨C5_join_first_wins rngZero [recPass] [rvJoe1, rvJoe2]
      (enrichRecord (buildLookup ([rvJoe1, rvJoe2].map synthesize)) recPass)
      (by decide) "Joe's" rfl rfl,
    by decide⟩

/-! ## C3: run-to-run determinism -/

/-- C3 (amended): for identical raw inputs the pipeline is a pure function
of the random draws, so whenever the filtered restaurant set is within the
sample bound — the only case in which no random draw is consumed — any two
runs produce identical output. -/
theorem C3_amended_determinism (rng₁ rng₂ : Nat → Nat)
    (dinesafeJson : List InspectionRecord) (yelpInput : Option (List ReviewRecord))
    (hsmall : (dinesafeJson.filter
      (fun d => RESTAURANT_TYPES.contains d.EstablishmentType)).length ≤ SAMPLE_SIZE) :
    processData rng₁ dinesafeJson yelpInput = processData rng₂ dinesafeJson yelpInput := by
  simp only [processData]
  rw [randomSample, randomSample, if_pos (Or.inr hsmall), if_pos (Or.inr hsmall)]

/-- Witness for the amended C3 at a small concrete input. -/
theorem C3_witness :
    processData rngZero [recPass] (some [rvJoe1, rvJoe2]) =
      processData rngOne [recPass] (some [rvJoe1, rvJoe2]) :=
  C3_amended_determinism rngZero rngOne [recPass] (some [rvJoe1, rvJoe2]) (by decide)

/-- First element of the oversized counterexample input. -/
def recA : InspectionRecord :=
  ⟨some "A", "Restaurant", "Pass", none, some "43.6", some "-79.4", "1"⟩

/-- Second element of the oversized counterexample input. -/
def recB : InspectionRecord :=
  ⟨some "B", "Restaurant", "Pass", none, some "43.7", some "-79.3", "2"⟩

/-- Filler element of the oversized counterexample input. -/
def recC : InspectionRecord :=
  ⟨some "C", "Restaurant", "Pass", none, some "43.8", some "-79.2", "3"⟩

/-- 15001 restaurant records — one more than the sample bound, so the
sampling step consumes random draws. -/
def bigInput : List InspectionRecord :=
  recA :: recB :: List.replicate 14999 recC

/-- Every record of `bigInput` passes the restaurant-type filter. -/
theorem bigInput_filter :
    bigInput.filter (fun d => RESTAURANT_TYPES.contains d.EstablishmentType) = bigInput := by
  rw [List.filter_eq_self]
  intro a ha
  simp only [bigInput, List.mem_cons, List.mem_replicate] at ha
  rcases ha with rfl | rfl | ⟨-, rfl⟩ <;> decide

/-- One unfolding step of the shuffle loop. -/
theorem fisherAux_succ (rng : Nat → Nat) (i k : Nat) (l : List α) :
    fisherAux rng i (k + 1) l =
      fisherAux rng (i + 1) k (swapList l i (i + rng i % (l.length - i))) := rfl

/-- `bigInput` has 15001 elements. -/
theorem bigInput_length : bigInput.length = 15001 := by
  rw [show bigInput = recA :: recB :: List.replicate 14999 recC from rfl,
    List.length_cons, List.length_cons, List.length_replicate]

/-- With the all-zeros stream every swap is a self-swap, so sampling just
keeps the first 15000 records. -/
theorem bigInput_sample_zero :
    randomSample rngZero bigInput SAMPLE_SIZE =
      recA :: recB :: (List.replicate 14999 recC).take 14998 := by
  unfold randomSample
  rw [if_neg (by rw [bigInput_length]; decide)]
  rw [fisherAux_zero_from rngZero SAMPLE_SIZE 0 bigInput (fun m _ => rfl)]
  show bigInput.take 15000 = _
  rw [show bigInput = recA :: recB :: List.replicate 14999 recC from rfl]
  rw [show (15000 : Nat) = 14999 + 1 from rfl, List.take_succ_cons,
    show (14999 : Nat) = 14998 + 1 from rfl, List.take_succ_cons]

/-- With a stream whose first draw is 1, the first loop iteration swaps the
first two records and the rest are self-swaps. -/
theorem bigInput_sample_one :
    randomSample rngOne bigInput SAMPLE_SIZE =
      recB :: recA :: (List.replicate 14999 recC).take 14998 := by
  unfold randomSample
  rw [if_neg (by rw [bigInput_length]; decide)]
  rw [show SAMPLE_SIZE = 14999 + 1 from rfl, fisherAux_succ]
  have harg : 0 + rngOne 0 % (bigInput.length - 0) = 1 := by
    rw [bigInput_length]; rfl
  have hswap : swapList bigInput 0 1 = recB :: recA :: List.replicate 14999 recC := by
    rw [show bigInput = recA :: recB :: List.replicate 14999 recC from rfl]
    rfl
  rw [harg, hswap]
  rw [fisherAux_zero_from rngOne 14999 1 _
    (fun m hm => by simp only [rngOne]; rw [if_neg (by omega)])]
  rw [show (14999 : Nat) + 1 = 14998 + 1 + 1 from rfl, List.take_succ_cons,
    List.take_succ_cons]

/-- The two heads enrich to different records. -/
theorem enrich_recA_ne_recB :
    enrichRecord (buildLookup []) recA ≠ enrichRecord (buildLookup []) recB := by
  decide

/-- Counterexample to C3 as stated: on 15001 identical restaurant records
(one more than the sample bound) two runs over the very same raw inputs
disagree — the sampling step consumes `Math.random()` draws, so the output
is not a function of the raw inputs alone. -/
theorem C3_counterexample :
    processData rngZero bigInput none ≠ processData rngOne bigInput none := by
  intro h
  simp only [processData, Option.getD_none, List.map_nil] at h
  rw [bigInput_filter, bigInput_sample_zero, bigInput_sample_one] at h
  have hLK : buildLookup ([] : List ReviewRecord) = [] := rfl
  rw [hLK] at h
  simp only [List.map_cons] at h
  have hgA : geoValid (enrichRecord [] recA) = true := by decide
  have hgB : geoValid (enrichRecord [] recB) = true := by decide
  simp only [List.filter_cons, hgA, hgB, if_true] at h
  injection h with h₁ h₂
  exact enrich_recA_ne_recB (by rw [hLK]; exact h₁)
